import Mathlib

/-!
# Port Register: a verified model of src/server.js

Shallow embedding of the HTTP handlers of `src/server.js` from the
port-register repository, together with theorems settling the frozen
specification claims.

Modelling conventions:
* JS timestamps (`Date.now()` values and ISO strings) are naturals
  (milliseconds since the epoch).
* The persisted store (`ports.json`) is the `List Registration` threaded
  through every handler; `loadData` / `saveData` become the input and the
  output component of each operation.  A handler that never calls
  `saveData` returns its input store unchanged.
* The OS scan (the `getSystemPorts()` call at each call site) is a
  parameter of type `Option PortMap`: `none` models the `null` the
  function returns when `netstat` fails or times out.
* JS truthiness the handlers rely on is modelled explicitly:
  `!r.expiresAt` is true both for a missing field and for the number `0`
  (`keepReg`); `ttlMinutes ? _ : TTL_MS` treats `0` as absent (`ttlOf`);
  `agent && reg.agent !== agent` treats the empty string as absent
  (`agentMismatch`); `!osInUse` is true both for `null` and for `false`
  (`jsFalsy`).
* `netstat` output lines are modelled after the lexical phase: each line
  is `none` (the regular expression did not match) or `some row` holding
  the four captured groups (protocol, port, state, pid).
-/

namespace PortRegister

/-- `TTL_MS` from server.js line 10: the default 30-minute TTL in ms. -/
def TTL_MS : Nat := 30 * 60 * 1000

/-- A persisted registration record, as created by the register handler
(server.js lines 222-229).  `expiresAt` is optional because `pruneExpired`
(line 46) guards `!r.expiresAt`, so hand-edited store files without the
field are representable. -/
structure Registration where
  port : Nat
  agent : String
  reason : String
  registeredAt : Nat
  expiresAt : Option Nat
  id : String
  lastHeartbeat : Option Nat := none
deriving Repr, DecidableEq

/-- Whitespace recognised by the trim model. -/
def isWS (c : Char) : Bool :=
  c == ' ' || c == '\t' || c == '\n' || c == '\r'

/-- JS `String.prototype.trim()`: strip leading and trailing whitespace.
Defined on the character list by structural recursion so concrete calls
compute by kernel reduction. -/
def jsTrim (s : String) : String :=
  String.mk (((s.data.dropWhile isWS).reverse.dropWhile isWS).reverse)

/-- The keep-condition of `pruneExpired` (server.js lines 45-48):
`if (!r.expiresAt) return true; return r.expiresAt > now;`.
A missing `expiresAt` and the falsy number `0` are both kept. -/
def keepReg (now : Nat) (r : Registration) : Bool :=
  match r.expiresAt with
  | none => true
  | some e => e == 0 || now < e

/-- `pruneExpired` (server.js lines 43-49). -/
def pruneExpired (now : Nat) (regs : List Registration) : List Registration :=
  regs.filter (keepReg now)

/-! ## OS socket scanner (`getSystemPorts`, server.js lines 73-98) -/

/-- Transport protocol captured by the netstat regex. -/
inductive Proto where
  | tcp
  | udp
deriving Repr, DecidableEq

/-- The value stored in the port map: `{ pid, proto, state }`. -/
structure SysBinding where
  pid : Nat
  proto : Proto
  state : String
deriving Repr, DecidableEq

/-- One netstat output line after the regular expression matched: the
four captured groups of server.js lines 80-84. -/
structure NetstatRow where
  proto : Proto
  port : Nat
  state : String
  pid : Nat
deriving Repr, DecidableEq

/-- The port map built by `getSystemPorts`: insertion-ordered key-value
pairs, mirroring a JS `Map`. -/
def PortMap : Type := List (Nat × SysBinding)

/-- The binding recorded for a row (server.js line 90): UDP rows get the
synthetic state label `"UDP"`. -/
def mkBinding (row : NetstatRow) : SysBinding :=
  { pid := row.pid
    proto := row.proto
    state := if row.proto == .udp then "UDP" else row.state }

/-- Processing of one matched row (server.js lines 86-91): skip TCP rows
that are not LISTENING; insert in-range ports not already present. -/
def insertRow (m : List (Nat × SysBinding)) (row : NetstatRow) :
    List (Nat × SysBinding) :=
  if row.proto == .tcp && row.state != "LISTENING" then m
  else if 0 < row.port ∧ row.port ≤ 65535 ∧ (List.lookup row.port m).isNone then
    m ++ [(row.port, mkBinding row)]
  else m

/-- `getSystemPorts` (server.js lines 73-98) applied to the list of
matched-or-not output lines.  The `try/catch` failure branch (returning
`null`) is modelled at the call sites by `Option PortMap`. -/
def getSystemPorts (lines : List (Option NetstatRow)) : List (Nat × SysBinding) :=
  lines.foldl
    (fun m l =>
      match l with
      | none => m
      | some row => insertRow m row)
    []

/-- A row that contributes an entry to the map when its port is not yet
present: in-range and, for TCP, in the LISTENING state. -/
def eligibleRow (row : NetstatRow) : Bool :=
  (row.proto != .tcp || row.state == "LISTENING")
    && decide (0 < row.port) && decide (row.port ≤ 65535)

/-- `isPortInUseByOS` (server.js lines 102-106) with the scan result made
explicit: `none` propagates scan unavailability, otherwise `map.has`. -/
def isPortInUseByOS (port : Nat) (scan : Option PortMap) : Option Bool :=
  match scan with
  | none => none
  | some m => some (List.lookup port m).isSome

/-- JS `!x` on a value that is `true`, `false` or `null`: only `true` is
truthy, so both `false` and `null` negate to `true`. -/
def jsFalsy (b : Option Bool) : Bool :=
  match b with
  | some true => false
  | _ => true

/-! ## Registration lifecycle handlers -/

/-- Result of `POST /api/ports/register` (server.js lines 195-235). -/
inductive RegisterOutcome where
  | invalid
  | conflict (existing : Registration)
  | created (r : Registration)
deriving Repr, DecidableEq

/-- The TTL computation of server.js line 221:
`ttlMinutes ? parseInt(ttlMinutes) * 60 * 1000 : TTL_MS`; the falsy value
`0` selects the default. -/
def ttlOf (ttlMinutes : Option Nat) : Nat :=
  match ttlMinutes with
  | none => TTL_MS
  | some m => if m = 0 then TTL_MS else m * 60 * 1000

/-- The registration object built by the register handler (server.js
lines 222-229). -/
def newRegistration (now port : Nat) (agent reason : String)
    (ttlMinutes : Option Nat) : Registration :=
  { port := port
    agent := jsTrim agent
    reason := jsTrim reason
    registeredAt := now
    expiresAt := some (now + ttlOf ttlMinutes)
    id := toString port ++ "-" ++ toString now
    lastHeartbeat := none }

/-- `POST /api/ports/register` (server.js lines 195-235).  Validation
first; then the store is pruned and the conflict check runs on the pruned
set; only the success path persists (`saveData` at line 232), so the
validation and conflict branches leave the store as loaded. -/
def registerOp (now port : Nat) (agent reason : String) (ttlMinutes : Option Nat)
    (regs : List Registration) : RegisterOutcome × List Registration :=
  if port < 1 ∨ port > 65535 then (.invalid, regs)
  else if jsTrim agent = "" then (.invalid, regs)
  else if jsTrim reason = "" then (.invalid, regs)
  else
    let pruned := pruneExpired now regs
    match pruned.find? (fun r => r.port == port) with
    | some existing => (.conflict existing, regs)
    | none =>
      (.created (newRegistration now port agent reason ttlMinutes),
        pruned ++ [newRegistration now port agent reason ttlMinutes])

/-- The guard `agent && reg.agent !== agent` of server.js lines 248 and
272: a missing agent and the falsy empty string both skip the check. -/
def agentMismatch (agent : Option String) (reg : Registration) : Bool :=
  match agent with
  | none => false
  | some a => if a = "" then false else reg.agent != a

/-- Result of `POST /api/ports/:port/heartbeat` (server.js lines 238-257). -/
inductive HeartbeatOutcome where
  | notFound
  | forbidden
  | ok (expiresAt : Nat)
deriving Repr, DecidableEq

/-- In-place mutation of the record found by `find` (server.js lines
252-253): the first registration with the given port gets a fresh
`expiresAt` and `lastHeartbeat`; everything else is untouched. -/
def heartbeatUpdate (now port : Nat) : List Registration → List Registration
  | [] => []
  | r :: rs =>
    if r.port == port then
      { r with expiresAt := some (now + TTL_MS), lastHeartbeat := some now } :: rs
    else r :: heartbeatUpdate now port rs

/-- `POST /api/ports/:port/heartbeat` (server.js lines 238-257).  Note:
this handler does NOT call `pruneExpired`; `find` runs on the store as
loaded. -/
def heartbeatOp (now port : Nat) (agent : Option String)
    (regs : List Registration) : HeartbeatOutcome × List Registration :=
  match regs.find? (fun r => r.port == port) with
  | none => (.notFound, regs)
  | some reg =>
    if agentMismatch agent reg then (.forbidden, regs)
    else (.ok (now + TTL_MS), heartbeatUpdate now port regs)

/-- Result of `DELETE /api/ports/:port` (server.js lines 260-280). -/
inductive ReleaseOutcome where
  | notFound
  | forbidden
  | released (r : Registration)
deriving Repr, DecidableEq

/-- `splice(idx, 1)` at the first index whose port matches (server.js
lines 265 and 276). -/
def removeFirst (port : Nat) : List Registration → List Registration
  | [] => []
  | r :: rs => if r.port == port then rs else r :: removeFirst port rs

/-- `DELETE /api/ports/:port` (server.js lines 260-280).  Like heartbeat,
this handler does NOT call `pruneExpired`. -/
def releaseOp (port : Nat) (agent : Option String)
    (regs : List Registration) : ReleaseOutcome × List Registration :=
  match regs.find? (fun r => r.port == port) with
  | none => (.notFound, regs)
  | some reg =>
    if agentMismatch agent reg then (.forbidden, regs)
    else (.released reg, removeFirst port regs)

/-- `DELETE /api/ports` (server.js lines 283-286): unconditional clear. -/
def clearAllOp (_regs : List Registration) : List Registration := []

/-! ## Read-side handlers -/

/-- Result of `GET /api/ports/check/:port` (server.js lines 167-192).
The human-readable `recommendation` string of lines 186-190 is
presentation only and is not modelled. -/
inductive CheckOutcome where
  | invalidPort
  | ok (port : Nat) (available : Bool) (registeredBy : Option Registration)
      (osInUse : Option Bool)
deriving Repr, DecidableEq

/-- `GET /api/ports/check/:port` (server.js lines 167-192).  On a valid
port the handler prunes and saves the pruned store; `available` is
`!registered && !osInUse`, where `!osInUse` follows JS truthiness on the
tri-state value (`jsFalsy`). -/
def checkOp (now port : Nat) (scan : Option PortMap)
    (regs : List Registration) : CheckOutcome × List Registration :=
  if port < 1 ∨ port > 65535 then (.invalidPort, regs)
  else
    let pruned := pruneExpired now regs
    let registered := pruned.find? (fun r => r.port == port)
    let osInUse := isPortInUseByOS port scan
    (.ok port (registered.isNone && jsFalsy osInUse) registered osInUse, pruned)

/-- One element of the `GET /api/ports` response (server.js lines
119-129): the registration spread together with the OS annotations. -/
structure AnnotatedRegistration where
  reg : Registration
  osInUse : Option Bool
  osPid : Option Nat
  osProto : Option Proto
  osState : Option String
  osProcess : Option String
deriving Repr, DecidableEq

/-- The per-registration enrichment of server.js lines 119-128.
`pidMap.get(info.pid) || null` maps an empty name to `null`. -/
def enrichRegistration (scan : Option PortMap) (pidMap : List (Nat × String))
    (r : Registration) : AnnotatedRegistration :=
  let info : Option SysBinding :=
    match scan with
    | none => none
    | some m => List.lookup r.port m
  { reg := r
    osInUse :=
      match scan with
      | none => none
      | some m => some (List.lookup r.port m).isSome
    osPid := info.map (fun i => i.pid)
    osProto := info.map (fun i => i.proto)
    osState := info.map (fun i => i.state)
    osProcess :=
      match info with
      | none => none
      | some i =>
        match List.lookup i.pid pidMap with
        | none => none
        | some n => if n = "" then none else some n }

/-- `GET /api/ports` (server.js lines 111-132): prune, save the pruned
store, then enrich every surviving registration.  Line 118 only invokes
the process-list resolver when the scan succeeded, so with `scan = none`
the pid map in use is empty. -/
def listPortsOp (now : Nat) (scan : Option PortMap) (pidMap : List (Nat × String))
    (regs : List Registration) : List AnnotatedRegistration × List Registration :=
  let pruned := pruneExpired now regs
  let pm : List (Nat × String) :=
    match scan with
    | some _ => pidMap
    | none => []
  (pruned.map (enrichRegistration scan pm), pruned)

/-- One element of the `GET /api/ports/system` response (server.js lines
148-161). -/
structure AnnotatedBinding where
  port : Nat
  pid : Nat
  proto : Proto
  state : String
  process : Option String
  registered : Bool
  registration : Option Registration
deriving Repr, DecidableEq

/-- `new Map(entries).get(p)` semantics (server.js line 145): for
duplicate keys the LAST entry wins, because `Map.set` overwrites. -/
def lastLookupReg (p : Nat) (regs : List Registration) : Option Registration :=
  regs.foldl (fun acc r => if r.port == p then some r else acc) none

/-- Insertion into an ascending-by-port list, used to model
`[...portMap.keys()].sort((a, b) => a - b)` (server.js line 147). -/
def insertSorted (x : Nat × SysBinding) :
    List (Nat × SysBinding) → List (Nat × SysBinding)
  | [] => [x]
  | y :: ys => if x.1 ≤ y.1 then x :: y :: ys else y :: insertSorted x ys

/-- Sort the port map entries by port ascending. -/
def sortByPort (l : List (Nat × SysBinding)) : List (Nat × SysBinding) :=
  l.foldr insertSorted []

/-- Result of `GET /api/ports/system` (server.js lines 135-164). -/
inductive SystemOutcome where
  | scanUnavailable
  | ok (ports : List AnnotatedBinding)
deriving Repr, DecidableEq

/-- `GET /api/ports/system` (server.js lines 135-164): a failed scan is a
500; otherwise every OS-bound port, ascending, annotated with process
name and the matching pruned registration.  The handler prunes only in
memory (line 144 has no `saveData`), so the store is returned as loaded. -/
def systemOp (now : Nat) (scan : Option PortMap) (pidMap : List (Nat × String))
    (regs : List Registration) : SystemOutcome × List Registration :=
  match scan with
  | none => (.scanUnavailable, regs)
  | some m =>
    let pruned := pruneExpired now regs
    let annotated := (sortByPort m).map fun pi =>
      { port := pi.1
        pid := pi.2.pid
        proto := pi.2.proto
        state := pi.2.state
        process :=
          match List.lookup pi.2.pid pidMap with
          | none => none
          | some n => if n = "" then none else some n
        registered := (lastLookupReg pi.1 pruned).isSome
        registration := lastLookupReg pi.1 pruned : AnnotatedBinding }
    (.ok annotated, regs)

/-! ## Port allocator (`GET /api/suggest`, server.js lines 289-306) -/

/-- The ascending scan loop of server.js lines 299-303: the first `p` in
`[lo, hi]` with `free p`, else none. -/
def scanLoop (free : Nat → Bool) (lo hi : Nat) : Option Nat :=
  if h : lo ≤ hi then
    if free lo then some lo else scanLoop free (lo + 1) hi
  else none
termination_by hi + 1 - lo
decreasing_by omega

/-- `GET /api/suggest` (server.js lines 289-306).  The query parameters
default via `parseInt(x) || d`, so `0` (falsy) also selects the default.
The loop condition is `!registeredPorts.has(p) && !isPortInUseByOS(p,
portMap)`; with an unavailable scan `isPortInUseByOS` yields `null`,
which `!` coerces to `true` (`jsFalsy`).  The handler prunes only in
memory (line 293, no `saveData`), so the store is returned as loaded. -/
def suggestOp (now : Nat) (qmin qmax : Option Nat) (scan : Option PortMap)
    (regs : List Registration) : Option Nat × List Registration :=
  let mn : Nat :=
    match qmin with
    | none => 3000
    | some m => if m = 0 then 3000 else m
  let mx : Nat :=
    match qmax with
    | none => 9999
    | some m => if m = 0 then 9999 else m
  let registeredPorts := (pruneExpired now regs).map (fun r => r.port)
  (scanLoop
    (fun p => !(registeredPorts.contains p) && jsFalsy (isPortInUseByOS p scan))
    mn mx, regs)

/-! ## The operation alphabet of the uniqueness invariant -/

/-- One mutating touch of the persisted store: the operation alphabet of
the per-port uniqueness claim (register, heartbeat, release, clearAll,
and the prune-and-persist performed by the read handlers). -/
inductive Op where
  | register (now port : Nat) (agent reason : String) (ttl : Option Nat)
  | heartbeat (now port : Nat) (agent : Option String)
  | release (port : Nat) (agent : Option String)
  | clearAll
  | prune (now : Nat)
deriving Repr

/-- Effect of one operation on the persisted store. -/
def applyOp (s : List Registration) : Op → List Registration
  | .register now port agent reason ttl => (registerOp now port agent reason ttl s).2
  | .heartbeat now port agent => (heartbeatOp now port agent s).2
  | .release port agent => (releaseOp port agent s).2
  | .clearAll => clearAllOp s
  | .prune now => pruneExpired now s

/-- The store after a sequence of operations from the empty registry. -/
def runOps (ops : List Op) : List Registration :=
  ops.foldl applyOp []

/-! ## Helper lemmas -/

/-- The stored ports are pairwise distinct. -/
def PortsNodup (regs : List Registration) : Prop :=
  (regs.map Registration.port).Nodup

lemma pruneExpired_sublist (now : Nat) (regs : List Registration) :
    List.Sublist (pruneExpired now regs) regs :=
  List.filter_sublist regs

lemma portsNodup_of_sublist {l1 l2 : List Registration}
    (hs : List.Sublist l1 l2) (h : PortsNodup l2) : PortsNodup l1 :=
  h.sublist (hs.map Registration.port)

lemma heartbeatUpdate_map_port (now port : Nat) (l : List Registration) :
    (heartbeatUpdate now port l).map Registration.port =
      l.map Registration.port := by
  induction l with
  | nil => rfl
  | cons r rs ih =>
    by_cases h : r.port == port
    · simp [heartbeatUpdate, h]
    · simp [heartbeatUpdate, h, ih]

lemma removeFirst_sublist (port : Nat) (l : List Registration) :
    List.Sublist (removeFirst port l) l := by
  induction l with
  | nil => simp [removeFirst]
  | cons r rs ih =>
    by_cases h : r.port == port
    · rw [removeFirst, if_pos h]
      exact List.sublist_cons_self r rs
    · simpa [removeFirst, h] using ih.cons₂ r

lemma portsNodup_registerOp (now port : Nat) (agent reason : String)
    (ttl : Option Nat) (regs : List Registration) (h : PortsNodup regs) :
    PortsNodup (registerOp now port agent reason ttl regs).2 := by
  unfold registerOp
  split
  · exact h
  split
  · exact h
  split
  · exact h
  rcases hf : (pruneExpired now regs).find? (fun r => r.port == port) with _ | ex
  · simp only [hf]
    have hpr : PortsNodup (pruneExpired now regs) :=
      portsNodup_of_sublist (pruneExpired_sublist now regs) h
    have hnot : ∀ r ∈ pruneExpired now regs, r.port ≠ port := by
      intro r hr
      have := List.find?_eq_none.mp hf r hr
      simpa using this
    unfold PortsNodup
    rw [List.map_append, List.nodup_append]
    refine ⟨hpr, by simp, ?_⟩
    intro q hq
    simp only [List.map_cons, List.map_nil, List.mem_map] at hq ⊢
    rcases hq with ⟨r, hr, rfl⟩
    simp only [List.mem_singleton]
    intro hcontra
    exact hnot r hr (by simpa using hcontra)
  · simp only [hf]
    exact h

lemma portsNodup_heartbeatOp (now port : Nat) (agent : Option String)
    (regs : List Registration) (h : PortsNodup regs) :
    PortsNodup (heartbeatOp now port agent regs).2 := by
  unfold heartbeatOp
  rcases hf : regs.find? (fun r => r.port == port) with _ | reg <;>
    simp only [hf]
  · exact h
  · split
    · exact h
    · unfold PortsNodup
      rw [heartbeatUpdate_map_port]
      exact h

lemma portsNodup_releaseOp (port : Nat) (agent : Option String)
    (regs : List Registration) (h : PortsNodup regs) :
    PortsNodup (releaseOp port agent regs).2 := by
  unfold releaseOp
  rcases hf : regs.find? (fun r => r.port == port) with _ | reg <;>
    simp only [hf]
  · exact h
  · split
    · exact h
    · exact portsNodup_of_sublist (removeFirst_sublist port regs) h

lemma portsNodup_applyOp (s : List Registration) (op : Op)
    (h : PortsNodup s) : PortsNodup (applyOp s op) := by
  cases op with
  | register now port agent reason ttl =>
    exact portsNodup_registerOp now port agent reason ttl s h
  | heartbeat now port agent => exact portsNodup_heartbeatOp now port agent s h
  | release port agent => exact portsNodup_releaseOp port agent s h
  | clearAll => simp [applyOp, clearAllOp, PortsNodup]
  | prune now =>
    exact portsNodup_of_sublist (pruneExpired_sublist now s) h

lemma portsNodup_runOps (ops : List Op) : PortsNodup (runOps ops) := by
  have key : ∀ (l : List Op) (s : List Registration), PortsNodup s →
      PortsNodup (l.foldl applyOp s) := by
    intro l
    induction l with
    | nil => intro s hs; exact hs
    | cons op rest ih =>
      intro s hs
      exact ih (applyOp s op) (portsNodup_applyOp s op hs)
  exact key ops [] (by simp [PortsNodup])

lemma length_filter_port_le_one (l : List Registration) (h : PortsNodup l)
    (p : Nat) : (l.filter (fun r => r.port == p)).length ≤ 1 := by
  induction l with
  | nil => simp
  | cons r rs ih =>
    unfold PortsNodup at h
    simp only [List.map_cons, List.nodup_cons] at h
    by_cases hp : r.port == p
    · have hrp : r.port = p := by simpa using hp
      have hnone : rs.filter (fun x => x.port == p) = [] := by
        rw [List.filter_eq_nil_iff]
        intro x hx hc
        have hxp : x.port = p := by simpa using hc
        have hxmem : x.port ∈ rs.map Registration.port := List.mem_map_of_mem _ hx
        rw [hxp, ← hrp] at hxmem
        exact h.1 hxmem
      simp [List.filter_cons, hp, hnone]
    · have := ih h.2
      simpa [List.filter_cons, hp] using this

lemma scanLoop_step_none (free : Nat → Bool) (lo hi : Nat) (h : ¬ lo ≤ hi) :
    scanLoop free lo hi = none := by
  rw [scanLoop]
  simp [h]

lemma scanLoop_step_hit (free : Nat → Bool) (lo hi : Nat) (h : lo ≤ hi)
    (hf : free lo = true) : scanLoop free lo hi = some lo := by
  rw [scanLoop]
  simp [h, hf]

lemma scanLoop_step_miss (free : Nat → Bool) (lo hi : Nat) (h : lo ≤ hi)
    (hf : free lo = false) : scanLoop free lo hi = scanLoop free (lo + 1) hi := by
  rw [scanLoop]
  simp [h, hf]

lemma scanLoop_none_aux (free : Nat → Bool) (hi : Nat) :
    ∀ n lo, hi + 1 - lo ≤ n →
      (scanLoop free lo hi = none ↔ ∀ q, lo ≤ q → q ≤ hi → free q = false) := by
  intro n
  induction n with
  | zero =>
    intro lo hlo
    have hgt : ¬ lo ≤ hi := by omega
    rw [scanLoop_step_none free lo hi hgt]
    constructor
    · intro _ q h1 h2
      exact absurd (h1.trans h2) hgt
    · intro _
      rfl
  | succ n ih =>
    intro lo hlo
    by_cases hle : lo ≤ hi
    · by_cases hf : free lo = true
      · rw [scanLoop_step_hit free lo hi hle hf]
        constructor
        · intro hc
          exact absurd hc (by simp)
        · intro hall
          have := hall lo le_rfl hle
          rw [hf] at this
          exact absurd this (by simp)
      · have hf0 : free lo = false := by
          revert hf
          cases free lo <;> simp
        rw [scanLoop_step_miss free lo hi hle hf0, ih (lo + 1) (by omega)]
        constructor
        · intro hall q h1 h2
          rcases Nat.eq_or_lt_of_le h1 with rfl | hlt
          · exact hf0
          · exact hall q (by omega) h2
        · intro hall q h1 h2
          exact hall q (by omega) h2
    · rw [scanLoop_step_none free lo hi hle]
      constructor
      · intro _ q h1 h2
        exact absurd (h1.trans h2) hle
      · intro _
        rfl

lemma scanLoop_some_aux (free : Nat → Bool) (hi : Nat) :
    ∀ n lo, hi + 1 - lo ≤ n → ∀ p,
      (scanLoop free lo hi = some p ↔
        lo ≤ p ∧ p ≤ hi ∧ free p = true ∧
          ∀ q, lo ≤ q → q < p → free q = false) := by
  intro n
  induction n with
  | zero =>
    intro lo hlo p
    have hgt : ¬ lo ≤ hi := by omega
    rw [scanLoop_step_none free lo hi hgt]
    constructor
    · intro hc
      exact absurd hc (by simp)
    · rintro ⟨h1, h2, -, -⟩
      exact absurd (h1.trans h2) hgt
  | succ n ih =>
    intro lo hlo p
    by_cases hle : lo ≤ hi
    · by_cases hf : free lo = true
      · rw [scanLoop_step_hit free lo hi hle hf]
        constructor
        · intro hc
          have hp : lo = p := by simpa using hc
          subst hp
          exact ⟨le_rfl, hle, hf, fun q h1 h2 => absurd h2 (by omega)⟩
        · rintro ⟨h1, h2, h3, h4⟩
          rcases Nat.eq_or_lt_of_le h1 with rfl | hlt
          · rfl
          · have := h4 lo le_rfl hlt
            rw [hf] at this
            exact absurd this (by simp)
      · have hf0 : free lo = false := by
          revert hf
          cases free lo <;> simp
        rw [scanLoop_step_miss free lo hi hle hf0, ih (lo + 1) (by omega) p]
        constructor
        · rintro ⟨h1, h2, h3, h4⟩
          refine ⟨by omega, h2, h3, fun q hq1 hq2 => ?_⟩
          rcases Nat.eq_or_lt_of_le hq1 with rfl | hlt
          · exact hf0
          · exact h4 q (by omega) hq2
        · rintro ⟨h1, h2, h3, h4⟩
          have hne : lo ≠ p := by
            intro hc
            subst hc
            rw [h3] at hf0
            exact absurd hf0 (by simp)
          exact ⟨by omega, h2, h3, fun q hq1 hq2 => h4 q (by omega) hq2⟩
    · rw [scanLoop_step_none free lo hi hle]
      constructor
      · intro hc
        exact absurd hc (by simp)
      · rintro ⟨h1, h2, -, -⟩
        exact absurd (h1.trans h2) hle

lemma scanLoop_eq_none_iff (free : Nat → Bool) (lo hi : Nat) :
    scanLoop free lo hi = none ↔ ∀ q, lo ≤ q → q ≤ hi → free q = false :=
  scanLoop_none_aux free hi (hi + 1 - lo) lo le_rfl

lemma scanLoop_eq_some_iff (free : Nat → Bool) (lo hi p : Nat) :
    scanLoop free lo hi = some p ↔
      lo ≤ p ∧ p ≤ hi ∧ free p = true ∧
        ∀ q, lo ≤ q → q < p → free q = false :=
  scanLoop_some_aux free hi (hi + 1 - lo) lo le_rfl p

lemma registerOp_invalid_branch (now port : Nat) (agent reason : String)
    (ttl : Option Nat) (regs : List Registration)
    (h : port < 1 ∨ port > 65535 ∨ jsTrim agent = "" ∨ jsTrim reason = "") :
    registerOp now port agent reason ttl regs = (.invalid, regs) := by
  unfold registerOp
  by_cases h1 : port < 1 ∨ port > 65535
  · rw [if_pos h1]
  · rw [if_neg h1]
    by_cases h2 : jsTrim agent = ""
    · rw [if_pos h2]
    · rw [if_neg h2]
      have h3 : jsTrim reason = "" := by tauto
      rw [if_pos h3]

lemma registerOp_valid_branch (now port : Nat) (agent reason : String)
    (ttl : Option Nat) (regs : List Registration)
    (hv : ¬(port < 1 ∨ port > 65535 ∨ jsTrim agent = "" ∨ jsTrim reason = "")) :
    registerOp now port agent reason ttl regs =
      match (pruneExpired now regs).find? (fun r => r.port == port) with
      | some existing => (.conflict existing, regs)
      | none =>
        (.created (newRegistration now port agent reason ttl),
          pruneExpired now regs ++ [newRegistration now port agent reason ttl]) := by
  unfold registerOp
  have h1 : ¬(port < 1 ∨ port > 65535) := by tauto
  have h2 : ¬(jsTrim agent = "") := by tauto
  have h3 : ¬(jsTrim reason = "") := by tauto
  rw [if_neg h1, if_neg h2, if_neg h3]

/-! ## Claim theorems -/

/-- Claim C1: for every sequence of register, heartbeat, release,
clearAll and prune operations starting from the empty registry, the
pruned registration set contains at most one entry per port — at any
instant at most one active (unexpired) registration exists per port. -/
theorem per_port_uniqueness (ops : List Op) (now p : Nat) :
    ((pruneExpired now (runOps ops)).filter (fun r => r.port == p)).length ≤ 1 :=
  length_filter_port_le_one _
    (portsNodup_of_sublist (pruneExpired_sublist now (runOps ops))
      (portsNodup_runOps ops)) p

/-- Claim C3: register fails Validation exactly when the port is outside
[1, 65535] or agent or reason is blank after trimming; on valid input it
fails Conflict exactly when an active (unexpired) registration already
occupies the port, whichever agent asks, and the conflicting record is
that active occupant; otherwise it appends exactly one new registration
whose `expiresAt` is `now + ttl`, the ttl defaulting to the fixed
30-minute constant when not supplied. -/
theorem register_semantics (now port : Nat) (agent reason : String)
    (ttl : Option Nat) (regs : List Registration) :
    ((registerOp now port agent reason ttl regs).1 = .invalid ↔
      port < 1 ∨ port > 65535 ∨ jsTrim agent = "" ∨ jsTrim reason = "") ∧
    (¬(port < 1 ∨ port > 65535 ∨ jsTrim agent = "" ∨ jsTrim reason = "") →
      ((∃ ex, (registerOp now port agent reason ttl regs).1 = .conflict ex) ↔
        ∃ r ∈ pruneExpired now regs, r.port = port) ∧
      (∀ ex, (registerOp now port agent reason ttl regs).1 = .conflict ex →
        ex ∈ pruneExpired now regs ∧ ex.port = port) ∧
      ((∀ r ∈ pruneExpired now regs, r.port ≠ port) →
        registerOp now port agent reason ttl regs =
          (.created (newRegistration now port agent reason ttl),
            pruneExpired now regs ++ [newRegistration now port agent reason ttl]) ∧
        (newRegistration now port agent reason ttl).port = port ∧
        (newRegistration now port agent reason ttl).agent = jsTrim agent ∧
        (newRegistration now port agent reason ttl).reason = jsTrim reason ∧
        (ttl = none →
          (newRegistration now port agent reason ttl).expiresAt =
            some (now + TTL_MS)) ∧
        (∀ m, ttl = some m → 0 < m →
          (newRegistration now port agent reason ttl).expiresAt =
            some (now + m * 60 * 1000)))) := by
  constructor
  · constructor
    · intro h
      by_contra hc
      rw [registerOp_valid_branch now port agent reason ttl regs hc] at h
      rcases hf : (pruneExpired now regs).find? (fun r => r.port == port) with _ | ex <;>
        simp [hf] at h
    · intro h
      rw [registerOp_invalid_branch now port agent reason ttl regs h]
  · intro hv
    rw [registerOp_valid_branch now port agent reason ttl regs hv]
    rcases hf : (pruneExpired now regs).find? (fun r => r.port == port) with _ | ex <;>
      simp only [hf]
    · refine ⟨?_, ?_, ?_⟩
      · constructor
        · rintro ⟨ex, hex⟩
          simp at hex
        · rintro ⟨r, hr, hrp⟩
          have := List.find?_eq_none.mp hf r hr
          simp [hrp] at this
      · intro ex hex
        simp at hex
      · intro _
        refine ⟨by trivial, by trivial, by trivial, by trivial, ?_, ?_⟩
        · intro h
          subst h
          rfl
        · intro m hm hmpos
          subst hm
          simp only [newRegistration, ttlOf]
          rw [if_neg (by omega : ¬ m = 0)]
    · have hmem := List.mem_of_find?_eq_some hf
      have hpred : ex.port = port := by simpa using List.find?_some hf
      refine ⟨?_, ?_, ?_⟩
      · exact ⟨fun _ => ⟨ex, hmem, hpred⟩, fun _ => ⟨ex, rfl⟩⟩
      · intro ex' hex'
        have hee : ex = ex' := by simpa using hex'
        subst hee
        exact ⟨hmem, hpred⟩
      · intro hno
        exact absurd hpred (hno ex hmem)

/-- Witness for C3: a concrete successful registration with a supplied
positive ttl, and a concrete validation failure. -/
theorem register_semantics_witness :
    registerOp 1000 8080 " alpha " "dev server" (some 5) [] =
      (.created (newRegistration 1000 8080 " alpha " "dev server" (some 5)),
        pruneExpired 1000 [] ++
          [newRegistration 1000 8080 " alpha " "dev server" (some 5)]) ∧
    (newRegistration 1000 8080 " alpha " "dev server" (some 5)).expiresAt =
      some (1000 + 5 * 60 * 1000) ∧
    (registerOp 2 70000 "a" "r" none []).1 = .invalid := by
  have hv : ¬(8080 < 1 ∨ 8080 > 65535 ∨ (jsTrim " alpha " = "") ∨
      (jsTrim "dev server" = "")) := by decide
  have h := (register_semantics 1000 8080 " alpha " "dev server" (some 5) []).2 hv
  have hcr := h.2.2 (by intro r hr; simp [pruneExpired] at hr)
  refine ⟨hcr.1, hcr.2.2.2.2.2 5 rfl (by omega), ?_⟩
  exact (register_semantics 2 70000 "a" "r" none []).1.mpr (by right; left; decide)

/-- Claim C10: a register request with `ttlMinutes = 0` (valid port,
agent and reason, no active conflict) is not rejected and does not create
an immediately expired registration: the falsy check applies the default
TTL, so the created record expires at `now + TTL_MS`. -/
theorem register_zero_ttl (now port : Nat) (agent reason : String)
    (regs : List Registration)
    (h1 : 1 ≤ port) (h2 : port ≤ 65535)
    (h3 : jsTrim agent ≠ "") (h4 : jsTrim reason ≠ "")
    (h5 : ∀ r ∈ pruneExpired now regs, r.port ≠ port) :
    registerOp now port agent reason (some 0) regs =
      (.created (newRegistration now port agent reason (some 0)),
        pruneExpired now regs ++ [newRegistration now port agent reason (some 0)]) ∧
    (newRegistration now port agent reason (some 0)).expiresAt =
      some (now + TTL_MS) := by
  have hv : ¬(port < 1 ∨ port > 65535 ∨ jsTrim agent = "" ∨ jsTrim reason = "") := by
    push_neg
    exact ⟨by omega, by omega, h3, h4⟩
  rw [registerOp_valid_branch now port agent reason (some 0) regs hv]
  have hf : (pruneExpired now regs).find? (fun r => r.port == port) = none := by
    rw [List.find?_eq_none]
    intro r hr
    simpa using h5 r hr
  simp only [hf]
  exact ⟨by trivial, by trivial⟩

/-- Witness for C10: a concrete zero-ttl registration gets the default
30-minute expiry. -/
theorem register_zero_ttl_witness :
    registerOp 1000 8080 "a" "dev" (some 0) [] =
      (.created (newRegistration 1000 8080 "a" "dev" (some 0)),
        pruneExpired 1000 [] ++ [newRegistration 1000 8080 "a" "dev" (some 0)]) ∧
    (newRegistration 1000 8080 "a" "dev" (some 0)).expiresAt =
      some (1000 + TTL_MS) :=
  register_zero_ttl 1000 8080 "a" "dev" [] (by decide) (by decide) (by decide)
    (by decide) (by intro r hr; simp [pruneExpired] at hr)

/-! Concrete records used by counterexamples and witnesses. -/

/-- A live registration of port 8080 owned by agent `a` (expires at
1000000). -/
def regB : Registration :=
  { port := 8080
    agent := "a"
    reason := "api server"
    registeredAt := 0
    expiresAt := some 1000000
    id := "8080-0"
    lastHeartbeat := none }

/-- An expired registration of port 9090 (expired at time 100). -/
def regStale : Registration :=
  { port := 9090
    agent := "b"
    reason := "db"
    registeredAt := 0
    expiresAt := some 100
    id := "9090-0"
    lastHeartbeat := none }

lemma heartbeatUpdate_forall2 (now port : Nat) (l : List Registration) :
    List.Forall₂
      (fun r r' =>
        r'.port = r.port ∧ r'.agent = r.agent ∧ r'.reason = r.reason ∧
          r'.registeredAt = r.registeredAt ∧ r'.id = r.id ∧
          (r.port ≠ port → r' = r))
      l (heartbeatUpdate now port l) := by
  induction l with
  | nil => simp [heartbeatUpdate]
  | cons r rs ih =>
    by_cases h : r.port == port
    · rw [heartbeatUpdate, if_pos h]
      refine List.Forall₂.cons ⟨rfl, rfl, rfl, rfl, rfl, ?_⟩ ?_
      · intro hc
        exact absurd (by simpa using h) hc
      · exact List.forall₂_same.mpr fun x _ => ⟨rfl, rfl, rfl, rfl, rfl, fun _ => rfl⟩
    · rw [heartbeatUpdate, if_neg h]
      exact List.Forall₂.cons ⟨rfl, rfl, rfl, rfl, rfl, fun _ => rfl⟩ ih

lemma heartbeatUpdate_mem (now port : Nat) (l : List Registration)
    (reg : Registration) (hf : l.find? (fun r => r.port == port) = some reg) :
    ∃ r ∈ heartbeatUpdate now port l, r.port = port ∧
      r.expiresAt = some (now + TTL_MS) ∧ r.lastHeartbeat = some now := by
  induction l with
  | nil => simp at hf
  | cons r rs ih =>
    by_cases h : r.port == port
    · refine ⟨{ r with expiresAt := some (now + TTL_MS), lastHeartbeat := some now },
        ?_, by simpa using h, rfl, rfl⟩
      rw [heartbeatUpdate, if_pos h]
      exact List.mem_cons_self _ _
    · have hf2 : rs.find? (fun r => r.port == port) = some reg := by
        rwa [List.find?_cons_of_neg (p := fun x => x.port == port) rs h] at hf
      rcases ih hf2 with ⟨x, hx, hxs⟩
      refine ⟨x, ?_, hxs⟩
      rw [heartbeatUpdate, if_neg h]
      exact List.mem_cons_of_mem r hx

/-- Claim C4 as amended: heartbeat fails NotFound exactly when no
registration for the port, active or expired, exists in the stored set
(the handler does not prune, so an expired record is still found); on
success it sets the first matching registration's `expiresAt` to
`now + TTL_MS` and stamps `lastHeartbeat`, changing nothing else about
any record. -/
theorem heartbeat_semantics (now port : Nat) (agent : Option String)
    (regs : List Registration) :
    ((heartbeatOp now port agent regs).1 = .notFound ↔
      ∀ r ∈ regs, r.port ≠ port) ∧
    (∀ e regs', heartbeatOp now port agent regs = (.ok e, regs') →
      e = now + TTL_MS ∧ regs' = heartbeatUpdate now port regs ∧
      List.Forall₂
        (fun r r' =>
          r'.port = r.port ∧ r'.agent = r.agent ∧ r'.reason = r.reason ∧
            r'.registeredAt = r.registeredAt ∧ r'.id = r.id ∧
            (r.port ≠ port → r' = r))
        regs regs' ∧
      ∃ r ∈ regs', r.port = port ∧ r.expiresAt = some (now + TTL_MS) ∧
        r.lastHeartbeat = some now) := by
  constructor
  · unfold heartbeatOp
    rcases hf : regs.find? (fun r => r.port == port) with _ | reg <;> simp only [hf]
    · constructor
      · intro _ r hr
        have := List.find?_eq_none.mp hf r hr
        simpa using this
      · intro _
        trivial
    · have hmem := List.mem_of_find?_eq_some hf
      have hp : reg.port = port := by simpa using List.find?_some hf
      split
      · constructor
        · intro hc
          exact absurd hc (by simp)
        · intro hall
          exact absurd hp (hall reg hmem)
      · constructor
        · intro hc
          exact absurd hc (by simp)
        · intro hall
          exact absurd hp (hall reg hmem)
  · intro e regs' h
    unfold heartbeatOp at h
    rcases hf : regs.find? (fun r => r.port == port) with _ | reg <;>
      simp only [hf] at h
    · exact absurd h (by simp)
    · rcases hm : agentMismatch agent reg with _ | _
      · rw [hm] at h
        simp only [if_false, Bool.false_eq_true] at h
        have he : e = now + TTL_MS := by
          have := congrArg Prod.fst h
          simpa using this.symm
        have hs : regs' = heartbeatUpdate now port regs := by
          have := congrArg Prod.snd h
          simpa using this.symm
        subst he
        subst hs
        exact ⟨rfl, rfl, heartbeatUpdate_forall2 now port regs,
          heartbeatUpdate_mem now port regs reg hf⟩
      · rw [hm] at h
        simp at h

/-- Witness for C4: a concrete successful heartbeat stamps the matching
record. -/
theorem heartbeat_semantics_witness :
    ∃ r ∈ heartbeatUpdate 500 8080 [regB], r.port = 8080 ∧
      r.expiresAt = some (500 + TTL_MS) ∧ r.lastHeartbeat = some 500 :=
  (((heartbeat_semantics 500 8080 none [regB]).2 (500 + TTL_MS)
    (heartbeatUpdate 500 8080 [regB]) (by decide))).2.2.2

/-- Counterexample for C4 as stated: at time 200 the only registration of
port 8080 is expired (the pruned set is empty), so no active registration
exists; yet heartbeat does not fail NotFound — it succeeds and revives
the expired record, because the handler never prunes. -/
theorem heartbeat_revives_expired :
    pruneExpired 200 [{ regB with expiresAt := some 100 }] = [] ∧
    (heartbeatOp 200 8080 none [{ regB with expiresAt := some 100 }]).1 =
      .ok (200 + TTL_MS) := by
  decide

/-- Counterexample for C8 as stated: the supplied agent `""` differs from
the stored owner `"a"`, yet the heartbeat is not Forbidden and the record
is modified — the guard `agent && reg.agent !== agent` treats the falsy
empty string as if no agent had been supplied. -/
theorem empty_agent_bypasses_ownership :
    "" ≠ regB.agent ∧
    (heartbeatOp 500 8080 (some "") [regB]).1 ≠ .forbidden ∧
    (heartbeatOp 500 8080 (some "") [regB]).2 ≠ [regB] := by
  decide

/-- Claim C8 as amended: when heartbeat or release is called with a
supplied NON-EMPTY agent that differs from the stored registration's
agent, the operation fails Forbidden and the stored registry state is
unchanged. -/
theorem agent_mismatch_forbidden (now port : Nat) (a : String)
    (regs : List Registration) (reg : Registration)
    (hf : regs.find? (fun r => r.port == port) = some reg)
    (ha : a ≠ "") (hm : reg.agent ≠ a) :
    heartbeatOp now port (some a) regs = (.forbidden, regs) ∧
    releaseOp port (some a) regs = (.forbidden, regs) := by
  have hmm : agentMismatch (some a) reg = true := by
    show (if a = "" then false else reg.agent != a) = true
    rw [if_neg ha]
    simpa using hm
  constructor
  · unfold heartbeatOp
    simp only [hf]
    rw [if_pos hmm]
  · unfold releaseOp
    simp only [hf]
    rw [if_pos hmm]

/-- Witness for C8: agent `b` cannot refresh or release agent `a`'s
port 8080. -/
theorem agent_mismatch_forbidden_witness :
    heartbeatOp 500 8080 (some "b") [regB] = (.forbidden, [regB]) ∧
    releaseOp 8080 (some "b") [regB] = (.forbidden, [regB]) :=
  agent_mismatch_forbidden 500 8080 "b" [regB] regB (by decide) (by decide)
    (by decide)

/-- Counterexample for C2 as stated: release is a mutating operation, yet
it neither prunes nor persists a pruned set — after releasing port 8080
the stored set still contains `regStale`, which at time 200 is expired
(`keepReg 200 regStale = false`, since it expired at 100). -/
theorem release_leaves_expired_entry :
    (releaseOp 8080 none [regB, regStale]).1 = .released regB ∧
    (releaseOp 8080 none [regB, regStale]).2 = [regStale] ∧
    regStale.expiresAt = some 100 ∧
    keepReg 200 regStale = false := by
  decide

/-- Claim C2 as amended: the listing and check handlers prune at their
start and persist the pruned result, and register persists the pruned set
(plus the new record) on successful creation, so expired entries are
absent from the store after those operations; suggest prunes only in
memory and persists nothing; heartbeat and release never prune — their
post-state is the loaded store, possibly with one record updated or
removed.  Membership in the pruned set really excludes expiry (for a
nonzero `expiresAt`). -/
theorem prune_persist_per_op (now port : Nat) (scan : Option PortMap)
    (pidMap : List (Nat × String)) (qmin qmax ttl : Option Nat)
    (agent reason : String) (hb : Option String)
    (regs : List Registration) :
    (listPortsOp now scan pidMap regs).2 = pruneExpired now regs ∧
    (1 ≤ port → port ≤ 65535 →
      (checkOp now port scan regs).2 = pruneExpired now regs) ∧
    (∀ r regs', registerOp now port agent reason ttl regs = (.created r, regs') →
      regs' = pruneExpired now regs ++ [r]) ∧
    (suggestOp now qmin qmax scan regs).2 = regs ∧
    ((heartbeatOp now port hb regs).2 = regs ∨
      (heartbeatOp now port hb regs).2 = heartbeatUpdate now port regs) ∧
    ((releaseOp port hb regs).2 = regs ∨
      (releaseOp port hb regs).2 = removeFirst port regs) ∧
    (∀ r ∈ pruneExpired now regs, ∀ e, r.expiresAt = some e → e ≠ 0 → now < e) := by
  refine ⟨rfl, ?_, ?_, rfl, ?_, ?_, ?_⟩
  · intro h1 h2
    unfold checkOp
    rw [if_neg (by omega : ¬(port < 1 ∨ port > 65535))]
  · intro r regs' h
    by_cases hv : port < 1 ∨ port > 65535 ∨ jsTrim agent = "" ∨ jsTrim reason = ""
    · rw [registerOp_invalid_branch now port agent reason ttl regs hv] at h
      simp at h
    · rw [registerOp_valid_branch now port agent reason ttl regs hv] at h
      rcases hf : (pruneExpired now regs).find? (fun x => x.port == port) with _ | ex <;>
        simp only [hf] at h
      · have hr : newRegistration now port agent reason ttl = r :=
          by simpa using congrArg Prod.fst h
        have hs := congrArg Prod.snd h
        simp only at hs
        rw [← hs, hr]
      · simp at h
  · unfold heartbeatOp
    rcases hf : regs.find? (fun r => r.port == port) with _ | reg <;> simp only [hf]
    · left
      trivial
    · split
      · left
        trivial
      · right
        trivial
  · unfold releaseOp
    rcases hf : regs.find? (fun r => r.port == port) with _ | reg <;> simp only [hf]
    · left
      trivial
    · split
      · left
        trivial
      · right
        trivial
  · intro r hr e he h0
    have hk := (List.mem_filter.mp hr).2
    unfold keepReg at hk
    rw [he] at hk
    simp only [Bool.or_eq_true, beq_iff_eq, decide_eq_true_eq] at hk
    rcases hk with hk | hk
    · exact absurd hk h0
    · exact hk

/-- Witness for C2 as amended: at a concrete store holding one live and
one expired record, check persists exactly the pruned set. -/
theorem prune_persist_per_op_witness :
    (checkOp 200 8080 none [regB, regStale]).2 = pruneExpired 200 [regB, regStale] :=
  (prune_persist_per_op 200 8080 none [] none none none "a" "r" none
    [regB, regStale]).2.1 (by decide) (by decide)

/-- Claim C7: when the OS scan is unavailable, the system-ports endpoint
fails (500 ScanUnavailable) while the primary listing still succeeds,
answering one annotated entry per pruned registration with every
OS-presence annotation `none` (unknown) rather than bound or not-bound. -/
theorem scan_unavailable_degradation (now : Nat) (pidMap : List (Nat × String))
    (regs : List Registration) :
    systemOp now none pidMap regs = (.scanUnavailable, regs) ∧
    (listPortsOp now none pidMap regs).1.length = (pruneExpired now regs).length ∧
    ∀ a ∈ (listPortsOp now none pidMap regs).1,
      a.osInUse = none ∧ a.osPid = none ∧ a.osProto = none ∧
        a.osState = none ∧ a.osProcess = none := by
  refine ⟨rfl, by simp [listPortsOp], ?_⟩
  intro a ha
  simp only [listPortsOp, List.mem_map] at ha
  rcases ha with ⟨r, hr, rfl⟩
  exact ⟨rfl, rfl, rfl, rfl, rfl⟩

lemma jsFalsy_some (b : Bool) : jsFalsy (some b) = !b := by
  cases b <;> rfl

/-- The result component of suggest, with query bounds that do not hit
the falsy defaulting. -/
lemma suggestOp_fst (now mn mx : Nat) (scan : Option PortMap)
    (regs : List Registration) (h0 : mn ≠ 0) (h1 : mx ≠ 0) :
    (suggestOp now (some mn) (some mx) scan regs).1 =
      scanLoop
        (fun p => !(((pruneExpired now regs).map (fun r => r.port)).contains p)
          && jsFalsy (isPortInUseByOS p scan)) mn mx := by
  simp only [suggestOp]
  rw [if_neg h0, if_neg h1]

lemma suggest_free_true (now : Nat) (m : List (Nat × SysBinding))
    (regs : List Registration) (p : Nat) :
    (!(((pruneExpired now regs).map (fun r => r.port)).contains p)
      && jsFalsy (isPortInUseByOS p (some m))) = true ↔
    (∀ r ∈ pruneExpired now regs, r.port ≠ p) ∧ List.lookup p m = none := by
  simp [isPortInUseByOS, jsFalsy_some]

lemma suggest_free_false (now : Nat) (m : List (Nat × SysBinding))
    (regs : List Registration) (p : Nat) :
    (!(((pruneExpired now regs).map (fun r => r.port)).contains p)
      && jsFalsy (isPortInUseByOS p (some m))) = false ↔
    (∃ r ∈ pruneExpired now regs, r.port = p) ∨ (List.lookup p m).isSome := by
  simp only [isPortInUseByOS, jsFalsy_some]
  simp
  constructor
  · intro h
    by_cases hA : ∃ r ∈ pruneExpired now regs, r.port = p
    · exact Or.inl hA
    · right
      apply h
      intro x hx hc
      exact hA ⟨x, hx, hc⟩
  · rintro (⟨a, ha, hc⟩ | hB)
    · intro hA
      exact absurd hc (hA a ha)
    · intro _
      exact hB

/-- Claim C5: with the OS binding map available and nonzero bounds
`min ≤ max`, suggest returns `some p` exactly when `p` is the smallest
port in `[min, max]` that is neither actively registered (in the pruned
set) nor OS-bound, and returns none (NotFound) exactly when every port in
the range is registered or OS-bound. -/
theorem suggest_least_free (now mn mx : Nat) (m : List (Nat × SysBinding))
    (regs : List Registration)
    (h0 : 0 < mn) (h1 : 0 < mx) (_hle : mn ≤ mx) :
    (∀ p, (suggestOp now (some mn) (some mx) (some m) regs).1 = some p ↔
      (mn ≤ p ∧ p ≤ mx ∧ (∀ r ∈ pruneExpired now regs, r.port ≠ p) ∧
        List.lookup p m = none ∧
        ∀ q, mn ≤ q → q < p →
          ((∃ r ∈ pruneExpired now regs, r.port = q) ∨
            (List.lookup q m).isSome))) ∧
    ((suggestOp now (some mn) (some mx) (some m) regs).1 = none ↔
      ∀ p, mn ≤ p → p ≤ mx →
        ((∃ r ∈ pruneExpired now regs, r.port = p) ∨
          (List.lookup p m).isSome)) := by
  rw [suggestOp_fst now mn mx (some m) regs (by omega) (by omega)]
  constructor
  · intro p
    rw [scanLoop_eq_some_iff]
    constructor
    · rintro ⟨hp1, hp2, hp3, hp4⟩
      rcases (suggest_free_true now m regs p).mp hp3 with ⟨ha, hb⟩
      exact ⟨hp1, hp2, ha, hb, fun q hq1 hq2 =>
        (suggest_free_false now m regs q).mp (hp4 q hq1 hq2)⟩
    · rintro ⟨hp1, hp2, ha, hb, hq⟩
      exact ⟨hp1, hp2, (suggest_free_true now m regs p).mpr ⟨ha, hb⟩,
        fun q h1 h2 => (suggest_free_false now m regs q).mpr (hq q h1 h2)⟩
  · rw [scanLoop_eq_none_iff]
    constructor
    · intro h p hp1 hp2
      exact (suggest_free_false now m regs p).mp (h p hp1 hp2)
    · intro h q h1 h2
      exact (suggest_free_false now m regs q).mpr (h q h1 h2)

/-- A live registration of port 5000 used by the C5 witness. -/
def reg5000 : Registration :=
  { port := 5000
    agent := "c"
    reason := "web"
    registeredAt := 0
    expiresAt := some 1000000
    id := "5000-0"
    lastHeartbeat := none }

/-- Witness for C5 (the spec's worked example): with only 5000 registered
and nothing OS-bound, suggest(5000, 5002) returns 5001. -/
theorem suggest_least_free_witness :
    (suggestOp 0 (some 5000) (some 5002) (some []) [reg5000]).1 = some 5001 := by
  refine ((suggest_least_free 0 5000 5002 [] [reg5000] (by omega) (by omega)
    (by omega)).1 5001).mpr ⟨by omega, by omega, by decide, rfl, ?_⟩
  intro q h1 h2
  have hq : q = 5000 := by omega
  subst hq
  exact Or.inl ⟨reg5000, by decide, rfl⟩

/-- Claim C6 is violated by the code (the spec states the intent): when
the OS scan is unavailable, `isPortInUseByOS` returns `null` precisely to
keep "unknown" distinct, but the availability decisions collapse it —
check reports an unregistered port as `available: true` (while answering
`osInUse: null`), and suggest returns a port as free on the same basis. -/
theorem availability_conflates_unknown :
    (checkOp 0 5000 none []).1 = .ok 5000 true none none ∧
    (suggestOp 0 (some 5000) (some 5002) none []).1 = some 5000 := by
  constructor
  · decide
  · rw [suggestOp_fst 0 5000 5002 none [] (by omega) (by omega)]
    exact scanLoop_step_hit _ 5000 5002 (by omega) (by decide)

/-! ## The netstat parser characterization (C9) -/

lemma lookup_append_bindings (l1 l2 : List (Nat × SysBinding)) (p : Nat) :
    List.lookup p (l1 ++ l2) =
      match List.lookup p l1 with
      | some b => some b
      | none => List.lookup p l2 := by
  induction l1 with
  | nil => simp [List.lookup]
  | cons kv rest ih =>
    rcases kv with ⟨k, v⟩
    cases h : (p == k) <;> simp [List.lookup, h, ih]

lemma skip_not_eligible (row : NetstatRow)
    (h1 : (row.proto == .tcp && row.state != "LISTENING") = true) :
    eligibleRow row = false := by
  cases hq : (row.proto == .tcp) <;> simp_all [eligibleRow, bne]

lemma eligible_of_not_skip (row : NetstatRow)
    (h1 : ¬((row.proto == .tcp && row.state != "LISTENING") = true))
    (h2 : 0 < row.port) (h3 : row.port ≤ 65535) : eligibleRow row = true := by
  cases hq : (row.proto == .tcp) <;> simp_all [eligibleRow, bne]

lemma not_in_range_not_eligible (row : NetstatRow)
    (h : ¬(0 < row.port ∧ row.port ≤ 65535)) : eligibleRow row = false := by
  unfold eligibleRow
  by_cases h2 : 0 < row.port
  · have h3 : ¬ row.port ≤ 65535 := fun hc => h ⟨h2, hc⟩
    simp [h3]
  · simp [h2]

lemma getSystemPorts_lookup_aux (p : Nat) :
    ∀ (lines : List (Option NetstatRow)) (m : List (Nat × SysBinding)),
      List.lookup p
        (lines.foldl
          (fun m l =>
            match l with
            | none => m
            | some row => insertRow m row)
          m) =
        match List.lookup p m with
        | some b => some b
        | none =>
          ((lines.filterMap id).find?
            (fun row => eligibleRow row && row.port == p)).map mkBinding := by
  intro lines
  induction lines with
  | nil =>
    intro m
    cases hm : List.lookup p m <;> simp [hm]
  | cons l rest ih =>
    intro m
    cases l with
    | none =>
      simp only [List.foldl_cons]
      rw [ih m]
      simp
    | some row =>
      simp only [List.foldl_cons]
      rw [ih (insertRow m row)]
      have hfm : List.filterMap id (some row :: rest) =
          row :: List.filterMap id rest := by simp
      rw [hfm]
      by_cases h1 : (row.proto == .tcp && row.state != "LISTENING") = true
      · have hins : insertRow m row = m := by
          unfold insertRow
          rw [if_pos h1]
        rw [hins]
        have hpred : (eligibleRow row && (row.port == p)) = false := by
          rw [skip_not_eligible row h1]
          simp
        rw [List.find?_cons_of_neg
          (p := fun row => eligibleRow row && row.port == p) _ (by simp [hpred])]
      · by_cases h2 : 0 < row.port ∧ row.port ≤ 65535 ∧
            (List.lookup row.port m).isNone
        · have hins : insertRow m row = m ++ [(row.port, mkBinding row)] := by
            unfold insertRow
            rw [if_neg h1, if_pos h2]
          rw [hins, lookup_append_bindings]
          have helig : eligibleRow row = true :=
            eligible_of_not_skip row h1 h2.1 h2.2.1
          by_cases hp : p = row.port
          · subst hp
            have hmn : List.lookup row.port m = none :=
              Option.isNone_iff_eq_none.mp h2.2.2
            rw [hmn]
            simp [List.lookup, List.find?_cons, helig]
          · have hne : (row.port == p) = false := by
              simp
              exact fun hc => hp hc.symm
            have hlk1 : List.lookup p [(row.port, mkBinding row)] = none := by
              have : (p == row.port) = false := by
                simp
                exact hp
              simp [List.lookup, this]
            have hpred : (eligibleRow row && (row.port == p)) = false := by
              rw [hne, Bool.and_false]
            rw [List.find?_cons_of_neg
              (p := fun row => eligibleRow row && row.port == p) _
              (by simp [hpred])]
            cases hm2 : List.lookup p m <;> simp [hm2, hlk1]
        · have hins : insertRow m row = m := by
            unfold insertRow
            rw [if_neg h1, if_neg h2]
          rw [hins]
          cases hm2 : List.lookup p m with
          | some b => simp [hm2]
          | none =>
            simp only [hm2]
            have hpred : (eligibleRow row && (row.port == p)) = false := by
              by_cases hp : p = row.port
              · subst hp
                have hnr : ¬(0 < row.port ∧ row.port ≤ 65535) := by
                  intro hc
                  exact h2 ⟨hc.1, hc.2, by simp [hm2]⟩
                rw [not_in_range_not_eligible row hnr, Bool.false_and]
              · have hne : (row.port == p) = false := by
                  simp
                  exact fun hc => hp hc.symm
                rw [hne, Bool.and_false]
            rw [List.find?_cons_of_neg
              (p := fun row => eligibleRow row && row.port == p) _
              (by simp [hpred])]

lemma getSystemPorts_entries_aux :
    ∀ (lines : List (Option NetstatRow)) (m : List (Nat × SysBinding)),
      (∀ q b, (q, b) ∈ m →
        1 ≤ q ∧ q ≤ 65535 ∧ (b.proto = .udp → b.state = "UDP")) →
      ∀ q b,
        (q, b) ∈ lines.foldl
          (fun m l =>
            match l with
            | none => m
            | some row => insertRow m row)
          m →
        1 ≤ q ∧ q ≤ 65535 ∧ (b.proto = .udp → b.state = "UDP") := by
  intro lines
  induction lines with
  | nil =>
    intro m hm
    exact hm
  | cons l rest ih =>
    intro m hm
    cases l with
    | none => exact ih m hm
    | some row =>
      apply ih
      intro q b hqb
      have hqb2 : (q, b) ∈ insertRow m row := hqb
      clear hqb
      rename' hqb2 => hqb
      unfold insertRow at hqb
      by_cases h1 : (row.proto == .tcp && row.state != "LISTENING") = true
      · rw [if_pos h1] at hqb
        exact hm q b hqb
      · rw [if_neg h1] at hqb
        by_cases h2 : 0 < row.port ∧ row.port ≤ 65535 ∧
            (List.lookup row.port m).isNone
        · rw [if_pos h2] at hqb
          rcases List.mem_append.mp hqb with hin | hin
          · exact hm q b hin
          · have hqb2 : (q, b) = (row.port, mkBinding row) := by simpa using hin
            have hq : q = row.port := congrArg Prod.fst hqb2
            have hb : b = mkBinding row := congrArg Prod.snd hqb2
            subst hq
            subst hb
            refine ⟨h2.1, h2.2.1, ?_⟩
            intro hu
            have hu2 : row.proto = Proto.udp := hu
            simp [mkBinding, hu2]
        · rw [if_neg h2] at hqb
          exact hm q b hqb

/-- Claim C9: the parsed port-to-binding map is characterized by: the
entry at port `p` is the binding of the FIRST matched row that is
eligible (in range [1, 65535] and, for TCP, in state LISTENING) and
mentions `p` — so TCP rows contribute only when LISTENING, every
matching in-range UDP row contributes when its port is still free, and
the first row observed for a port wins; moreover every stored entry has
a port in [1, 65535] and every UDP entry carries the synthetic state
label "UDP". -/
theorem netstat_parse_spec (lines : List (Option NetstatRow)) (p : Nat) :
    List.lookup p (getSystemPorts lines) =
      ((lines.filterMap id).find?
        (fun row => eligibleRow row && row.port == p)).map mkBinding ∧
    ∀ q b, (q, b) ∈ getSystemPorts lines →
      1 ≤ q ∧ q ≤ 65535 ∧ (b.proto = .udp → b.state = "UDP") := by
  constructor
  · have h := getSystemPorts_lookup_aux p lines []
    simpa [getSystemPorts] using h
  · intro q b hqb
    exact getSystemPorts_entries_aux lines [] (by simp) q b hqb

end PortRegister
